import Mathlib

/-!
Verification of the resumable ingestion/merge pipeline of the
spotify-playlist-merger repository, as a shallow embedding in Lean 4.

The embedding follows the Python source files:
  - src/03_merge.py   (add_tracks_to_playlist: the batched writer)
  - src/fetch.py      (fetch_playlist_tracks, robust_api_call, save_checkpoint)
  - src/analyze.py    (SpotifyAnalyzer.get_deduplicated_tracks: the dedup query)
  - src/storage.py    (SpotifyStorage.clear_tracks / store_tracks)
  - src/01_fetch.py   (main: a full ingestion run)

Machine-level conventions: timestamps are Nat; SQL NULL text columns are
modelled as plain String (an absent value as the empty string) because no
verified property depends on NULL-specific semantics; the remote playlist
is modelled as the list of its items, so that one remote page call
pageFn(offset, limit) returns (items.drop offset).take limit and the
reported total is items.length.
-/

namespace SpotifyMerger

/-! ## Batched writer: src/03_merge.py, add_tracks_to_playlist -/

/-- Checkpoint record written by add_tracks_to_playlist
(fields playlist_id and timestamp are omitted: no claim depends on them). -/
structure WriteCkpt where
  tracks_added : Nat
  complete : Bool
  deriving Repr, DecidableEq

/-- Python: f"spotify:track:{tid}" if not tid.startswith("spotify:") else tid. -/
def toUri (tid : String) : String :=
  if tid.startsWith "spotify:" then tid else "spotify:track:" ++ tid

/-- Partition a list into consecutive chunks of n elements (the final chunk
may be shorter): the batch structure of `for i in range(0, len(xs), 100)`
with `batch = xs[i:i+100]`. -/
def chunksOf (n : Nat) (l : List α) : List (List α) :=
  if hn : n = 0 then [] else
  match l with
  | [] => []
  | x :: xs => (x :: xs).take n :: chunksOf n ((x :: xs).drop n)
termination_by l.length
decreasing_by
  simp [List.length_drop]
  omega

/-- Start index chosen by add_tracks_to_playlist from the on-disk
checkpoint: `start_index = checkpoint_data.get('tracks_added', 0)` is
executed only when the checkpoint exists and is NOT marked complete;
a complete checkpoint leaves start_index at 0. -/
def writeStartIndex (ckpt : Option WriteCkpt) : Nat :=
  match ckpt with
  | none => 0
  | some c => if c.complete then 0 else c.tracks_added

/-- Sequence of id-batches submitted to sp.playlist_add_items by
add_tracks_to_playlist, in call order:
`uris = [toUri tid for tid in track_ids]; remaining = uris[start_index:]`
then batches of 100 over remaining. -/
def addTracksBatches (ckpt : Option WriteCkpt) (track_ids : List String) :
    List (List String) :=
  chunksOf 100 ((track_ids.map toUri).drop (writeStartIndex ckpt))

/-- Value returned by add_tracks_to_playlist on the success path:
len(track_ids) when nothing remains, otherwise start_index plus the
lengths of all submitted batches. -/
def addTracksResult (ckpt : Option WriteCkpt) (track_ids : List String) : Nat :=
  let start := writeStartIndex ckpt
  let remaining := (track_ids.map toUri).drop start
  if remaining.isEmpty then track_ids.length
  else start + remaining.length

/-! ## Retry wrapper: src/fetch.py, robust_api_call -/

/-- Exceptions observable by robust_api_call: a SpotifyException carries
http_status and the optional Retry-After header; anything else is a plain
exception with a message. -/
inductive ApiError where
  | spotify (http_status : Nat) (retryAfter : Option Nat)
  | other (msg : String)
  deriving Repr, DecidableEq

/-- Observable behaviour of one robust_api_call run: the returned value or
raised exception, how many times the wrapped function was invoked, and the
argument of each time.sleep in order. -/
structure RetryTrace (α : Type) where
  result : Except ApiError α
  invocations : Nat
  sleeps : List Nat
  deriving Repr

/-- Loop body of robust_api_call over the remaining attempt numbers.
Branches mirror the source exactly: 429 sleeps retry_after + 1 (header
default 5), http_status >= 500 sleeps 2^attempt + 1, any other
SpotifyException is re-raised, any non-Spotify exception sleeps
2^attempt + 1; an exhausted loop raises the max-retries exception. -/
def robustAux (f : Nat → Except ApiError α) (max_retries : Nat) :
    List Nat → RetryTrace α
  | [] => ⟨Except.error (ApiError.other
      ("Max retries (" ++ toString max_retries ++ ") exceeded")), 0, []⟩
  | attempt :: rest =>
    match f attempt with
    | Except.ok v => ⟨Except.ok v, 1, []⟩
    | Except.error e =>
      match e with
      | ApiError.spotify s ra =>
        if s = 429 then
          let t := robustAux f max_retries rest
          ⟨t.result, t.invocations + 1, (ra.getD 5 + 1) :: t.sleeps⟩
        else if 500 ≤ s then
          let t := robustAux f max_retries rest
          ⟨t.result, t.invocations + 1, (2 ^ attempt + 1) :: t.sleeps⟩
        else
          ⟨Except.error e, 1, []⟩
      | ApiError.other _ =>
        let t := robustAux f max_retries rest
        ⟨t.result, t.invocations + 1, (2 ^ attempt + 1) :: t.sleeps⟩

/-- robust_api_call(func, max_retries): `for attempt in range(max_retries)`.
The wrapped function is modelled as a map from attempt number to outcome.
The source default for max_retries is 5. -/
def robust_api_call (f : Nat → Except ApiError α) (max_retries : Nat) :
    RetryTrace α :=
  robustAux f max_retries (List.range max_retries)

/-! ## Paginated fetcher: src/fetch.py, fetch_playlist_tracks -/

/-- On-disk checkpoint consumed by fetch_playlist_tracks (keys 'tracks',
'next_offset', 'complete'; 'timestamp' and 'error' are never read back). -/
structure FetchCkpt (α : Type) where
  tracks : List α
  next_offset : Nat
  complete : Bool
  deriving Repr

/-- Main loop of fetch_playlist_tracks (`while offset < total`), over a
remote playlist modelled as the list of its items: each iteration performs
the remote call sp.playlist_tracks(playlist_id, offset=offset, limit=100),
which returns (items.drop offset).take 100, extends the buffer with it and
advances offset by 100. Returns the final buffer together with the
(offset, limit) log of the page calls issued, in order. Checkpoint writes
inside the loop do not affect the returned value and are not modelled
here; the checkpoint states they can produce are quantified over in the
resume theorems. -/
def fetchLoop (items : List α) (total : Nat) (buf : List α) (offset : Nat) :
    List α × List (Nat × Nat) :=
  if offset < total then
    let r := fetchLoop items total (buf ++ (items.drop offset).take 100) (offset + 100)
    (r.1, (offset, 100) :: r.2)
  else
    (buf, [])
termination_by total - offset
decreasing_by omega

/-- fetch_playlist_tracks, given the checkpoint state found on disk (none
when no checkpoint file exists) and the remote playlist contents. Returns
the list of track items the call returns and the (offset, limit) log of
all remote calls it issues. A checkpoint that exists and is marked
complete short-circuits to the cached buffer with no remote call;
otherwise the one-item probe sp.playlist_tracks(playlist_id, limit=1) is
issued (logged as (0, 1)), total is read from it, and the page loop runs
from the resumed offset. -/
def fetch_playlist_tracks (ckpt : Option (FetchCkpt α)) (items : List α) :
    List α × List (Nat × Nat) :=
  match ckpt with
  | some c =>
    if c.complete then
      (c.tracks, [])
    else
      let r := fetchLoop items items.length c.tracks c.next_offset
      (r.1, (0, 1) :: r.2)
  | none =>
    let r := fetchLoop items items.length [] 0
    (r.1, (0, 1) :: r.2)

/-- Page-call log of the fetch loop as a function of total and starting
offset alone (the log does not depend on the buffer or the items). -/
def pageCallList (total offset : Nat) : List (Nat × Nat) :=
  if offset < total then (offset, 100) :: pageCallList total (offset + 100)
  else []
termination_by total - offset
decreasing_by omega

/-! ## Canonical store and dedup query: src/storage.py and src/analyze.py -/

/-- One row of the tracks table (src/storage.py, _init_schema); fetched_at
is omitted: it is never read by any query a claim refers to. SQL NULL is
modelled as the empty string for text columns. -/
structure Track where
  id : String
  name : String
  artist : String
  artist_id : String
  album : String
  album_id : String
  release_date : String
  duration_ms : Int
  popularity : Int
  explicit : Bool
  isrc : String
  added_at : Nat
  playlist_source : String
  deriving Repr, DecidableEq

/-- Grouping key of get_deduplicated_tracks: the eleven columns of its
GROUP BY clause (every selected column except the aggregated added_at). -/
structure GroupKey where
  id : String
  name : String
  artist : String
  artist_id : String
  album : String
  album_id : String
  release_date : String
  duration_ms : Int
  popularity : Int
  explicit : Bool
  isrc : String
  deriving Repr, DecidableEq

/-- Projection of a stored track onto the GROUP BY columns. -/
def groupKey (t : Track) : GroupKey :=
  ⟨t.id, t.name, t.artist, t.artist_id, t.album, t.album_id, t.release_date,
   t.duration_ms, t.popularity, t.explicit, t.isrc⟩

/-- One output row of get_deduplicated_tracks: the grouped columns plus
the aggregated MAX(added_at). -/
structure DedupRow where
  key : GroupKey
  added_at : Nat
  deriving Repr, DecidableEq

/-- Distinct group keys of a table, first occurrence first. -/
def distinctKeys : List GroupKey → List GroupKey
  | [] => []
  | k :: ks => k :: (distinctKeys ks).filter (fun x => ¬ x = k)

/-- MAX(added_at) over the rows of one GROUP BY group. -/
def groupMax (ts : List Track) (k : GroupKey) : Nat :=
  ((ts.filter (fun t => groupKey t = k)).map Track.added_at).foldl max 0

/-- Result of the GROUP BY stage of get_deduplicated_tracks: one row per
distinct value of the eleven grouped columns, carrying MAX(added_at). -/
def groupedRows (ts : List Track) : List DedupRow :=
  (distinctKeys (ts.map groupKey)).map (fun k => ⟨k, groupMax ts k⟩)

/-- ORDER BY name, artist comparison on grouped rows. -/
def rowLE (a b : DedupRow) : Bool :=
  a.key.name < b.key.name ∨ (a.key.name = b.key.name ∧ a.key.artist ≤ b.key.artist)

/-- Ordered insertion used by the sort modelling ORDER BY name, artist. -/
def insertRow (r : DedupRow) : List DedupRow → List DedupRow
  | [] => [r]
  | x :: xs => if rowLE r x then r :: x :: xs else x :: insertRow r xs

/-- Insertion sort modelling ORDER BY name, artist. Rows comparing equal
under (name, artist) are ordered arbitrarily by the SQL engine; this model
fixes one such order. No verified property depends on the tie order. -/
def sortRows : List DedupRow → List DedupRow
  | [] => []
  | r :: rs => insertRow r (sortRows rs)

/-- DISTINCT ON (id): keep the first row per id value, in row order. -/
def distinctOnId (seen : List String) : List DedupRow → List DedupRow
  | [] => []
  | r :: rs =>
    if r.key.id ∈ seen then distinctOnId seen rs
    else r :: distinctOnId (r.key.id :: seen) rs

/-- SpotifyAnalyzer.get_deduplicated_tracks (src/analyze.py): SELECT
DISTINCT ON (id) <eleven columns>, MAX(added_at) FROM tracks GROUP BY
<eleven columns> ORDER BY name, artist. -/
def get_deduplicated_tracks (ts : List Track) : List DedupRow :=
  distinctOnId [] (sortRows (groupedRows ts))

/-- Identity of a record for deduplication purposes, as defined by the
spec: (external identifier, display name, primary-artist name). -/
def identityKey (t : Track) : String × String × String :=
  (t.id, t.name, t.artist)

/-! ## Full-refresh ingestion: src/storage.py and src/01_fetch.py -/

/-- SpotifyStorage.clear_tracks: executes DELETE FROM tracks, an
unconditional full-table delete. -/
def clear_tracks (_store : List Track) : List Track := []

/-- SpotifyStorage.store_tracks: appends one row per fetched item carrying
the given playlist_source; items whose track or track id is missing are
skipped (missing id modelled as the empty string). -/
def store_tracks (store : List Track) (fetched : List Track)
    (playlist_source : String) : List Track :=
  store ++ (fetched.filter (fun t => ¬ t.id = "")).map
    (fun t => { t with playlist_source := playlist_source })

/-- One ingestion run of src/01_fetch.py main: storage.clear_tracks() once
up front, then store_tracks(tracks, playlist_id) for each playlist in
order; sources pairs each playlist id with the items fetched for it. -/
def ingest_run (store : List Track) (sources : List (String × List Track)) :
    List Track :=
  sources.foldl (fun st p => store_tracks st p.2 p.1) (clear_tracks store)

/-! ## Checkpoint save under crash: src/fetch.py, save_checkpoint -/

/-- File contents observable by a load if the process crashes at an
arbitrary point of save_checkpoint. The source runs
`with open(filepath, 'w') as f: json.dump(data, f)`: open(.., 'w')
truncates the file in place, then the serialized text is streamed into it
left to right, so a crash can expose the old contents (before open) or any
prefix of the new contents (after truncation). -/
def save_checkpoint_states (old new : String) : List String :=
  old :: (List.range (new.length + 1)).map (fun k => (new.toList.take k).asString)

/-! ## Helper lemmas: chunking -/

theorem chunksOf_nil (n : Nat) : chunksOf n ([] : List α) = [] := by
  unfold chunksOf
  split <;> rfl

theorem chunksOf_cons (n : Nat) (hn : ¬ n = 0) (x : α) (xs : List α) :
    chunksOf n (x :: xs) = (x :: xs).take n :: chunksOf n ((x :: xs).drop n) := by
  rw [chunksOf]
  simp [hn]

theorem chunksOf_drop (n : Nat) (hn : ¬ n = 0) :
    ∀ (K : Nat) (l : List α), chunksOf n (l.drop (n * K)) = (chunksOf n l).drop K := by
  intro K
  induction K with
  | zero => intro l; simp
  | succ K ih =>
    intro l
    match l with
    | [] => simp [chunksOf_nil]
    | x :: xs =>
      rw [chunksOf_cons n hn x xs, List.drop_succ_cons, ← ih ((x :: xs).drop n),
        List.drop_drop]
      have harith : n * (K + 1) = n * K + n := by ring
      rw [harith, Nat.add_comm (n * K) n]

theorem chunksOf_flatten (n : Nat) (hn : ¬ n = 0) :
    ∀ (fuel : Nat) (l : List α), l.length ≤ fuel → (chunksOf n l).flatten = l := by
  intro fuel
  induction fuel with
  | zero =>
    intro l hl
    have : l = [] := List.length_eq_zero.mp (Nat.le_zero.mp hl)
    subst this
    simp [chunksOf_nil]
  | succ fuel ih =>
    intro l hl
    match l with
    | [] => simp [chunksOf_nil]
    | x :: xs =>
      rw [chunksOf_cons n hn x xs, List.flatten_cons]
      rw [ih ((x :: xs).drop n)]
      · exact List.take_append_drop n (x :: xs)
      · have h1 : ((x :: xs).drop n).length = (x :: xs).length - n := List.length_drop n _
        have h2 : (x :: xs).length = xs.length + 1 := rfl
        omega

theorem chunksOf_mem_length (n : Nat) (hn : ¬ n = 0) :
    ∀ (fuel : Nat) (l : List α) (b : List α), l.length ≤ fuel →
      b ∈ chunksOf n l → b.length ≤ n := by
  intro fuel
  induction fuel with
  | zero =>
    intro l b hl hb
    have : l = [] := List.length_eq_zero.mp (Nat.le_zero.mp hl)
    subst this
    simp [chunksOf_nil] at hb
  | succ fuel ih =>
    intro l b hl hb
    match l with
    | [] => simp [chunksOf_nil] at hb
    | x :: xs =>
      rw [chunksOf_cons n hn x xs] at hb
      rcases List.mem_cons.mp hb with h | h
      · subst h
        simpa using Nat.min_le_left n (x :: xs).length
      · refine ih ((x :: xs).drop n) b ?_ h
        have h1 : ((x :: xs).drop n).length = (x :: xs).length - n := List.length_drop n _
        have h2 : (x :: xs).length = xs.length + 1 := rfl
        omega

/-! ## Helper lemmas: retry wrapper -/

theorem robustAux_invocations_le (f : Nat → Except ApiError α) (m : Nat) :
    ∀ l : List Nat, (robustAux f m l).invocations ≤ l.length := by
  intro l
  induction l with
  | nil => simp [robustAux]
  | cons a rest ih =>
    simp only [robustAux]
    cases hf : f a with
    | ok v => simp
    | error e =>
      cases e with
      | spotify s ra =>
        by_cases h429 : s = 429
        · simp only [h429, if_pos rfl]
          simpa using Nat.succ_le_succ ih
        · by_cases h5 : 500 ≤ s
          · simp only [if_neg h429, if_pos h5]
            simpa using Nat.succ_le_succ ih
          · simp only [if_neg h429, if_neg h5]
            simp
      | other msg =>
        simpa using Nat.succ_le_succ ih

theorem robustAux_allfail (f : Nat → Except ApiError α) (m : Nat) :
    ∀ l : List Nat, (∀ a ∈ l, ∃ e, f a = Except.error e) →
      ∃ e, (robustAux f m l).result = Except.error e := by
  intro l
  induction l with
  | nil => exact fun _ => ⟨_, rfl⟩
  | cons a rest ih =>
    intro hfail
    obtain ⟨e, he⟩ := hfail a (List.mem_cons_self a rest)
    have hrest : ∀ b ∈ rest, ∃ e, f b = Except.error e :=
      fun b hb => hfail b (List.mem_cons_of_mem a hb)
    simp only [robustAux, he]
    cases e with
    | spotify s ra =>
      by_cases h429 : s = 429
      · simpa [h429] using ih hrest
      · by_cases h5 : 500 ≤ s
        · simpa [h429, h5] using ih hrest
        · refine ⟨ApiError.spotify s ra, ?_⟩
          simp [h429, h5]
    | other msg => simpa using ih hrest

theorem robustAux_invocations_pos (f : Nat → Except ApiError α) (m : Nat)
    (a : Nat) (rest : List Nat) :
    1 ≤ (robustAux f m (a :: rest)).invocations := by
  simp only [robustAux]
  cases hf : f a with
  | ok v => simp
  | error e =>
    cases e with
    | spotify s ra =>
      by_cases h429 : s = 429
      · simp [h429]
      · by_cases h5 : 500 ≤ s
        · simp [h429, h5]
        · simp [h429, h5]
    | other msg => simp

/-! ## Claim C2: resumed batched write submits exactly the remaining batches -/

/-- C2: for a write job resumed from a checkpoint whose cursor records
K * 100 items already written, the batched write submits exactly the
batches after the first K of the full batch partition (hence M - K of the
M total batches), each batch has at most 100 ids, and the submitted ids
are exactly the ids after the first cursor-many — none of the first K
batches' ids is re-submitted. -/
theorem C2_resume_no_double_write (ids : List String) (K : Nat)
    (h : 100 * K ≤ ids.length) :
    addTracksBatches (some ⟨100 * K, false⟩) ids
        = (chunksOf 100 (ids.map toUri)).drop K ∧
    (addTracksBatches (some ⟨100 * K, false⟩) ids).length
        = (chunksOf 100 (ids.map toUri)).length - K ∧
    (∀ b ∈ addTracksBatches (some ⟨100 * K, false⟩) ids, b.length ≤ 100) ∧
    (addTracksBatches (some ⟨100 * K, false⟩) ids).flatten
        = (ids.map toUri).drop (100 * K) := by
  have hn : ¬ (100 : Nat) = 0 := by decide
  have hb : addTracksBatches (some ⟨100 * K, false⟩) ids
      = chunksOf 100 ((ids.map toUri).drop (100 * K)) := rfl
  have hmain : addTracksBatches (some ⟨100 * K, false⟩) ids
      = (chunksOf 100 (ids.map toUri)).drop K := by
    rw [hb, chunksOf_drop 100 hn K (ids.map toUri)]
  refine ⟨hmain, by rw [hmain, List.length_drop], ?_, ?_⟩
  · intro b hbmem
    rw [hb] at hbmem
    exact chunksOf_mem_length 100 hn ((ids.map toUri).drop (100 * K)).length _ b
      (Nat.le_refl _) hbmem
  · rw [hb]
    exact chunksOf_flatten 100 hn ((ids.map toUri).drop (100 * K)).length _ (Nat.le_refl _)

/-- Witness for C2 at a concrete input. -/
theorem C2_resume_no_double_write_witness :
    100 * 0 ≤ (["a", "b"] : List String).length ∧
    (addTracksBatches (some ⟨100 * 0, false⟩) ["a", "b"]
      = (chunksOf 100 ((["a", "b"] : List String).map toUri)).drop 0 ∧
     (addTracksBatches (some ⟨100 * 0, false⟩) ["a", "b"]).length
      = (chunksOf 100 ((["a", "b"] : List String).map toUri)).length - 0 ∧
     (∀ b ∈ addTracksBatches (some ⟨100 * 0, false⟩) ["a", "b"], b.length ≤ 100) ∧
     (addTracksBatches (some ⟨100 * 0, false⟩) ["a", "b"]).flatten
      = ((["a", "b"] : List String).map toUri).drop (100 * 0)) :=
  ⟨by decide, C2_resume_no_double_write ["a", "b"] 0 (by decide)⟩

/-! ## Claim C3: a complete write checkpoint does NOT short-circuit -/

/-- C3 (code bug): the claim and the spec say a complete write checkpoint
returns the total count with zero remote calls, but add_tracks_to_playlist
only applies the resume cursor when the checkpoint is NOT complete
(src/03_merge.py lines 51-53); with a complete checkpoint start_index
stays 0 and every id is re-submitted. At the concrete failing input
(one id, checkpoint complete with cursor 1) the code submits one full
batch again instead of making zero remote calls. -/
theorem C3_complete_checkpoint_resubmits :
    addTracksBatches (some ⟨1, true⟩) ["t1"] = [["spotify:track:t1"]] ∧
    ¬ (addTracksBatches (some ⟨1, true⟩) ["t1"]).length = 0 := by
  have h : addTracksBatches (some ⟨1, true⟩) ["t1"]
      = chunksOf 100 ["spotify:track:t1"] := rfl
  have h2 : chunksOf 100 ["spotify:track:t1"] = [["spotify:track:t1"]] := by
    rw [chunksOf_cons 100 (by decide) _ _]
    simp [chunksOf_nil]
  rw [h, h2]
  exact ⟨rfl, by decide⟩

/-! ## Claim C8: non-signaled failures are NOT uniformly retried -/

/-- C8 (counterexample): a SpotifyException whose status is neither 429
nor a 5xx (here 401) is re-raised immediately by robust_api_call — one
invocation, no sleep — contradicting the claim that every failure outside
the two signaled classes sleeps 2^attempt + 1 seconds and is retried. -/
theorem C8_counterexample :
    (robust_api_call
        (fun _ => (Except.error (ApiError.spotify 401 none) : Except ApiError Nat))
        5).invocations = 1 ∧
    (robust_api_call
        (fun _ => (Except.error (ApiError.spotify 401 none) : Except ApiError Nat))
        5).sleeps = [] ∧
    (robust_api_call
        (fun _ => (Except.error (ApiError.spotify 401 none) : Except ApiError Nat))
        5).result = Except.error (ApiError.spotify 401 none) :=
  ⟨rfl, rfl, rfl⟩

/-- C8 (amended): only non-SpotifyException failures are uniformly
retryable — they sleep 2^attempt + 1 seconds and the call is retried
(bounded by maxAttempts); a SpotifyException outside the two signaled
classes (status neither 429 nor >= 500) is re-raised immediately with no
sleep and no further invocation. -/
theorem C8_amended (f : Nat → Except ApiError α) (m s : Nat) (ra : Option Nat)
    (msg : String) (hm : 2 ≤ m) :
    ((f 0 = Except.error (ApiError.spotify s ra) → ¬ s = 429 → s < 500 →
        (robust_api_call f m).result = Except.error (ApiError.spotify s ra) ∧
        (robust_api_call f m).invocations = 1 ∧
        (robust_api_call f m).sleeps = []) ∧
     (f 0 = Except.error (ApiError.other msg) →
        2 ≤ (robust_api_call f m).invocations ∧
        ∃ rest, (robust_api_call f m).sleeps = (2 ^ 0 + 1) :: rest) ∧
     (robust_api_call f m).invocations ≤ m) := by
  obtain ⟨m', rfl⟩ : ∃ m', m = m' + 1 := ⟨m - 1, by omega⟩
  have hrange : List.range (m' + 1) = 0 :: (List.range m').map Nat.succ :=
    List.range_succ_eq_map m'
  have hm' : 1 ≤ m' := by omega
  obtain ⟨m'', rfl⟩ : ∃ m'', m' = m'' + 1 := ⟨m' - 1, by omega⟩
  refine ⟨?_, ?_, ?_⟩
  · intro hf h429 h5
    have h5' : ¬ 500 ≤ s := by omega
    unfold robust_api_call
    rw [hrange]
    simp [robustAux, hf, h429, h5']
  · intro hf
    unfold robust_api_call
    rw [hrange]
    have hne : (List.range (m'' + 1)).map Nat.succ = 1 :: (List.range m'').map (Nat.succ ∘ Nat.succ) := by
      rw [List.range_succ_eq_map]
      simp [List.map_map]
    constructor
    · simp only [robustAux, hf]
      rw [hne]
      have := robustAux_invocations_pos f (m'' + 1 + 1) 1
        ((List.range m'').map (Nat.succ ∘ Nat.succ))
      omega
    · simp only [robustAux, hf]
      exact ⟨_, rfl⟩
  · have := robustAux_invocations_le f (m'' + 1 + 1) (List.range (m'' + 1 + 1))
    simpa using this

/-- Witness for C8_amended at a concrete input: a plain (non-Spotify)
exception on every attempt is retried with an initial 2-second sleep. -/
theorem C8_amended_witness :
    2 ≤ (robust_api_call
        (fun _ => (Except.error (ApiError.other "boom") : Except ApiError Nat))
        5).invocations ∧
    ∃ rest, (robust_api_call
        (fun _ => (Except.error (ApiError.other "boom") : Except ApiError Nat))
        5).sleeps = (2 ^ 0 + 1) :: rest :=
  (C8_amended (fun _ => (Except.error (ApiError.other "boom") : Except ApiError Nat))
    5 400 none "boom" (by decide)).2.1 rfl

/-! ## Claim C9: maxAttempts is a hard ceiling -/

/-- C9: robust_api_call invokes the wrapped function at most max_retries
times (source default 5) for every failure pattern, and if every attempt
within the budget fails it raises an exception rather than retrying
further. -/
theorem C9_retry_ceiling (f : Nat → Except ApiError α) (m : Nat) :
    (robust_api_call f m).invocations ≤ m ∧
    ((∀ k < m, ∃ e, f k = Except.error e) →
      ∃ e, (robust_api_call f m).result = Except.error e) := by
  constructor
  · have := robustAux_invocations_le f m (List.range m)
    simpa using this
  · intro hfail
    exact robustAux_allfail f m (List.range m)
      (fun a ha => hfail a (List.mem_range.mp ha))

/-- Witness for C9 at a concrete input. -/
theorem C9_retry_ceiling_witness :
    (robust_api_call
        (fun _ => (Except.error (ApiError.other "down") : Except ApiError Nat))
        5).invocations ≤ 5 ∧
    ∃ e, (robust_api_call
        (fun _ => (Except.error (ApiError.other "down") : Except ApiError Nat))
        5).result = Except.error e :=
  ⟨(C9_retry_ceiling _ 5).1,
   (C9_retry_ceiling
      (fun _ => (Except.error (ApiError.other "down") : Except ApiError Nat)) 5).2
      (fun k _ => ⟨ApiError.other "down", rfl⟩)⟩

/-! ## Helper lemmas: paginated fetcher -/

theorem fetchLoop_unfold_lt (items : List α) (total : Nat) (buf : List α)
    (offset : Nat) (h : offset < total) :
    fetchLoop items total buf offset =
      ((fetchLoop items total (buf ++ (items.drop offset).take 100) (offset + 100)).1,
       (offset, 100) ::
         (fetchLoop items total (buf ++ (items.drop offset).take 100) (offset + 100)).2) := by
  rw [fetchLoop]
  simp [h]

theorem fetchLoop_unfold_ge (items : List α) (total : Nat) (buf : List α)
    (offset : Nat) (h : ¬ offset < total) :
    fetchLoop items total buf offset = (buf, []) := by
  rw [fetchLoop]
  simp [h]

theorem pageCallList_unfold_lt (total offset : Nat) (h : offset < total) :
    pageCallList total offset = (offset, 100) :: pageCallList total (offset + 100) := by
  rw [pageCallList]
  simp [h]

theorem pageCallList_unfold_ge (total offset : Nat) (h : ¬ offset < total) :
    pageCallList total offset = [] := by
  rw [pageCallList]
  simp [h]

theorem fetchLoop_calls (items : List α) (total : Nat) :
    ∀ (fuel offset : Nat) (buf : List α), total - offset ≤ fuel →
      (fetchLoop items total buf offset).2 = pageCallList total offset := by
  intro fuel
  induction fuel with
  | zero =>
    intro offset buf hfuel
    have h : ¬ offset < total := by omega
    rw [fetchLoop_unfold_ge items total buf offset h, pageCallList_unfold_ge total offset h]
  | succ fuel ih =>
    intro offset buf hfuel
    by_cases h : offset < total
    · rw [fetchLoop_unfold_lt items total buf offset h, pageCallList_unfold_lt total offset h]
      simp only [List.cons.injEq, true_and]
      exact ih (offset + 100) _ (by omega)
    · rw [fetchLoop_unfold_ge items total buf offset h, pageCallList_unfold_ge total offset h]

theorem fetchLoop_from_take (items : List α) :
    ∀ (fuel offset : Nat), items.length - offset ≤ fuel →
      (fetchLoop items items.length (items.take offset) offset).1 = items := by
  intro fuel
  induction fuel with
  | zero =>
    intro offset hfuel
    have h : ¬ offset < items.length := by omega
    rw [fetchLoop_unfold_ge items items.length _ offset h]
    exact List.take_of_length_le (by omega)
  | succ fuel ih =>
    intro offset hfuel
    by_cases h : offset < items.length
    · rw [fetchLoop_unfold_lt items items.length _ offset h]
      have hbuf : items.take offset ++ (items.drop offset).take 100
          = items.take (offset + 100) := (List.take_add items offset 100).symm
      rw [hbuf]
      exact ih (offset + 100) (by omega)
    · rw [fetchLoop_unfold_ge items items.length _ offset h]
      exact List.take_of_length_le (by omega)

/-! ## Claim C4: crash-safe resume of the paginated fetch -/

/-- C4: resuming fetch_playlist_tracks from a checkpoint written at a page
boundary — cursor 100 * N with the buffer holding the first 100 * N items,
complete = false — returns the same sequence as an uninterrupted fresh run
(both return the whole playlist), and the resumed run's remote calls are
the one-item probe followed by the page calls from offset 100 * N
onwards. -/
theorem C4_crash_safe_resume (items : List α) (N : Nat) :
    (fetch_playlist_tracks (some ⟨items.take (100 * N), 100 * N, false⟩) items).1
      = (fetch_playlist_tracks (none : Option (FetchCkpt α)) items).1 ∧
    (fetch_playlist_tracks (some ⟨items.take (100 * N), 100 * N, false⟩) items).1
      = items ∧
    (fetch_playlist_tracks (some ⟨items.take (100 * N), 100 * N, false⟩) items).2
      = (0, 1) :: pageCallList items.length (100 * N) := by
  have hres : (fetch_playlist_tracks (some ⟨items.take (100 * N), 100 * N, false⟩) items).1
      = items := by
    simp only [fetch_playlist_tracks, Bool.false_eq_true, if_false]
    exact fetchLoop_from_take items (items.length - 100 * N) (100 * N) (Nat.le_refl _)
  have hfresh : (fetch_playlist_tracks (none : Option (FetchCkpt α)) items).1 = items := by
    simp only [fetch_playlist_tracks]
    have := fetchLoop_from_take items items.length 0 (by omega)
    simpa using this
  refine ⟨by rw [hres, hfresh], hres, ?_⟩
  simp only [fetch_playlist_tracks, Bool.false_eq_true, if_false]
  simp only [List.cons.injEq, true_and]
  exact fetchLoop_calls items items.length (items.length - 100 * N) (100 * N) _
    (Nat.le_refl _)

/-- Witness for C4 at a concrete input (a 250-item playlist resumed after
two full pages). -/
theorem C4_crash_safe_resume_witness :
    (fetch_playlist_tracks
        (some ⟨(List.range 250).take (100 * 2), 100 * 2, false⟩) (List.range 250)).1
      = (fetch_playlist_tracks (none : Option (FetchCkpt Nat)) (List.range 250)).1 :=
  (C4_crash_safe_resume (List.range 250) 2).1

/-! ## Claim C5: idempotent replay of a completed fetch job -/

/-- C5: when the checkpoint exists and is marked complete,
fetch_playlist_tracks returns exactly the checkpoint's buffered sequence
and issues zero remote calls. -/
theorem C5_idempotent_replay (items : List α) (c : FetchCkpt α)
    (h : c.complete = true) :
    fetch_playlist_tracks (some c) items = (c.tracks, []) := by
  simp [fetch_playlist_tracks, h]

/-- Witness for C5 at a concrete input. -/
theorem C5_idempotent_replay_witness :
    fetch_playlist_tracks (some ⟨[7, 8], 2, true⟩) [1, 2, 3, 4, 5] = ([7, 8], []) :=
  C5_idempotent_replay [1, 2, 3, 4, 5] ⟨[7, 8], 2, true⟩ rfl

/-! ## Claim C6: the probe call is issued on resume as well -/

/-- C6 (counterexample): resumed from an incomplete checkpoint with
cursor 200 over a 250-item playlist, fetch_playlist_tracks does NOT issue
exactly one remote call: line 52 of src/fetch.py runs the one-item probe
sp.playlist_tracks(playlist_id, limit=1) on every non-complete invocation,
resumed or fresh, so the resumed run issues two calls. -/
theorem C6_counterexample :
    ¬ ((fetch_playlist_tracks
        (some ⟨(List.range 250).take 200, 200, false⟩) (List.range 250)).2).length = 1 := by
  have hcalls : (fetch_playlist_tracks
      (some ⟨(List.range 250).take 200, 200, false⟩) (List.range 250)).2
      = (0, 1) :: pageCallList 250 200 := by
    simp only [fetch_playlist_tracks, Bool.false_eq_true, if_false, List.cons.injEq,
      true_and]
    have := fetchLoop_calls (List.range 250) (List.range 250).length 100 200
      ((List.range 250).take 200) (by simp)
    simpa using this
  rw [hcalls, pageCallList_unfold_lt 250 200 (by omega),
    pageCallList_unfold_ge 250 300 (by omega)]
  decide

/-- C6 (amended): the one-item total probe is issued at the start of every
non-complete invocation, resumed or fresh; the 250-item scenario resumed
from cursor 200 therefore issues exactly two remote calls — the probe
(offset 0, limit 1) and one page call (offset 200, limit 100) — and
returns all 250 items. -/
theorem C6_amended :
    (fetch_playlist_tracks
        (some ⟨(List.range 250).take 200, 200, false⟩) (List.range 250)).2
      = [(0, 1), (200, 100)] ∧
    (fetch_playlist_tracks
        (some ⟨(List.range 250).take 200, 200, false⟩) (List.range 250)).1
      = List.range 250 ∧
    (List.range 250).length = 250 := by
  refine ⟨?_, ?_, by simp⟩
  · have hcalls : (fetch_playlist_tracks
        (some ⟨(List.range 250).take 200, 200, false⟩) (List.range 250)).2
        = (0, 1) :: pageCallList 250 200 := by
      simp only [fetch_playlist_tracks, Bool.false_eq_true, if_false, List.cons.injEq,
        true_and]
      have := fetchLoop_calls (List.range 250) (List.range 250).length 100 200
        ((List.range 250).take 200) (by simp)
      simpa using this
    rw [hcalls, pageCallList_unfold_lt 250 200 (by omega),
      pageCallList_unfold_ge 250 300 (by omega)]
  · simp only [fetch_playlist_tracks, Bool.false_eq_true, if_false]
    have := fetchLoop_from_take (List.range 250) 100 200 (by simp)
    simpa using this

/-! ## Claim C7: full-refresh clears every source, not one -/

/-- Example record tagged playlist_1, used in concrete store states. -/
def exTrackA : Track :=
  ⟨"idA", "Song A", "Artist A", "arA", "Album A", "alA", "2020-01-01",
   200000, 50, false, "ISRCA", 10, "playlist_1"⟩

/-- Example record tagged playlist_2, used in concrete store states. -/
def exTrackB : Track :=
  ⟨"idB", "Song B", "Artist B", "arB", "Album B", "alB", "2021-01-01",
   180000, 40, true, "ISRCB", 20, "playlist_2"⟩

/-- Elements surviving an ingestion fold either were in the starting store
or carry the tag of one of the ingested sources. -/
theorem ingest_fold_sources :
    ∀ (sources : List (String × List Track)) (st : List Track) (t : Track),
      t ∈ sources.foldl (fun acc p => store_tracks acc p.2 p.1) st →
      t ∈ st ∨ t.playlist_source ∈ sources.map Prod.fst := by
  intro sources
  induction sources with
  | nil => intro st t ht; exact Or.inl ht
  | cons s rest ih =>
    intro st t ht
    rcases ih (store_tracks st s.2 s.1) t ht with hmem | htag
    · rcases List.mem_append.mp hmem with hst | hnew
      · exact Or.inl hst
      · right
        obtain ⟨u, _, hu⟩ := List.mem_map.mp hnew
        rw [← hu]
        exact List.mem_cons_self _ _
    · exact Or.inr (List.mem_cons_of_mem _ htag)

/-- C7 (counterexample): a fresh ingestion run for source playlist_1 over
a store holding a playlist_2-tagged record deletes that record as well:
clear_tracks (src/storage.py line 151) runs DELETE FROM tracks with no
source filter and src/01_fetch.py line 67 calls it once before storing any
source; records stored under other source tags are NOT left unchanged. -/
theorem C7_counterexample :
    (ingest_run [exTrackB] [("playlist_1", [exTrackA])]).filter
        (fun t => t.playlist_source = "playlist_2") = [] ∧
    ¬ (([exTrackB] : List Track).filter
        (fun t => t.playlist_source = "playlist_2") = []) := by
  constructor
  · rfl
  · decide

/-- C7 (amended): an ingestion run first clears the ENTIRE tracks table —
every source tag — and then stores the newly fetched records of each
source in the run, so the result is independent of the prior store
contents; every surviving record carries a tag of this run's sources, and
in particular ingesting the same source twice in sequence leaves exactly
the second run's records. -/
theorem C7_amended (store store2 : List Track)
    (sources : List (String × List Track)) :
    ingest_run store sources = ingest_run store2 sources ∧
    (∀ t ∈ ingest_run store sources, t.playlist_source ∈ sources.map Prod.fst) ∧
    (∀ (tag : String) (l1 l2 : List Track),
      ingest_run (ingest_run store [(tag, l1)]) [(tag, l2)]
        = ingest_run store [(tag, l2)]) := by
  refine ⟨rfl, ?_, fun tag l1 l2 => rfl⟩
  intro t ht
  rcases ingest_fold_sources sources (clear_tracks store) t ht with hmem | htag
  · exact absurd hmem (List.not_mem_nil t)
  · exact htag

/-- Witness for C7_amended at a concrete input. -/
theorem C7_amended_witness :
    ingest_run [exTrackB] [("playlist_1", [exTrackA])]
      = ingest_run [] [("playlist_1", [exTrackA])] ∧
    ingest_run (ingest_run [exTrackB] [("playlist_1", [exTrackA])])
        [("playlist_1", [exTrackA])]
      = ingest_run [exTrackB] [("playlist_1", [exTrackA])] :=
  ⟨(C7_amended [exTrackB] [] [("playlist_1", [exTrackA])]).1,
   (C7_amended [exTrackB] [] [("playlist_1", [exTrackA])]).2.2 "playlist_1"
     [exTrackA] [exTrackA]⟩

/-! ## Claim C10: checkpoint save is not crash-atomic -/

/-- C10 (counterexample): save_checkpoint writes the checkpoint file with
`open(filepath, 'w')` followed by json.dump — truncate in place, then
stream — with no temporary file and no rename; a crash between the
truncation and the completed write leaves a state (here the empty file)
that is neither the previous checkpoint nor the new one. -/
theorem C10_counterexample :
    ∃ s ∈ save_checkpoint_states "x" "yz", ¬ s = "x" ∧ ¬ s = "yz" := by
  refine ⟨"", ?_, by decide, by decide⟩
  decide

/-- C10 (amended): checkpoint save is a plain in-place truncating
overwrite, not an atomic temp-and-rename: whenever the previous checkpoint
contents and the new contents are both non-empty, a crash during
save_checkpoint can expose a torn state — observable by a subsequent
load — that equals neither the previous nor the new checkpoint. -/
theorem C10_amended (old new : String) (h1 : ¬ old = "") (h2 : ¬ new = "") :
    ∃ s ∈ save_checkpoint_states old new, ¬ s = old ∧ ¬ s = new := by
  refine ⟨"", ?_, fun h => h1 h.symm, fun h => h2 h.symm⟩
  unfold save_checkpoint_states
  refine List.mem_cons_of_mem old ?_
  refine List.mem_map.mpr ⟨0, ?_, rfl⟩
  exact List.mem_range.mpr (by omega)

/-- Witness for C10_amended at a concrete input. -/
theorem C10_amended_witness :
    ∃ s ∈ save_checkpoint_states "old-checkpoint" "new-checkpoint",
      ¬ s = "old-checkpoint" ∧ ¬ s = "new-checkpoint" :=
  C10_amended "old-checkpoint" "new-checkpoint" (by decide) (by decide)

/-! ## Helper lemmas: dedup query -/

theorem mem_distinctKeys (ks : List GroupKey) (x : GroupKey) :
    x ∈ distinctKeys ks ↔ x ∈ ks := by
  induction ks with
  | nil => simp [distinctKeys]
  | cons k rest ih =>
    simp only [distinctKeys, List.mem_cons]
    constructor
    · intro h
      rcases h with h | h
      · exact Or.inl h
      · exact Or.inr (ih.mp (List.mem_of_mem_filter h))
    · intro h
      rcases h with h | h
      · exact Or.inl h
      · by_cases hx : x = k
        · exact Or.inl hx
        · exact Or.inr (List.mem_filter.mpr ⟨ih.mpr h, by simpa using hx⟩)

theorem distinctKeys_nodup (ks : List GroupKey) : (distinctKeys ks).Nodup := by
  induction ks with
  | nil => exact List.nodup_nil
  | cons k rest ih =>
    refine List.Nodup.cons ?_ (List.Nodup.filter _ ih)
    intro hk
    have := (List.mem_filter.mp hk).2
    simp at this

theorem insertRow_perm (r : DedupRow) (l : List DedupRow) :
    (insertRow r l).Perm (r :: l) := by
  induction l with
  | nil => exact List.Perm.refl _
  | cons x xs ih =>
    simp only [insertRow]
    by_cases h : rowLE r x
    · simp only [h, if_true]
      exact List.Perm.refl _
    · simp only [h, if_false]
      exact (List.Perm.cons x ih).trans (List.Perm.swap r x xs)

theorem sortRows_perm (l : List DedupRow) : (sortRows l).Perm l := by
  induction l with
  | nil => exact List.Perm.refl _
  | cons r rs ih =>
    exact (insertRow_perm r (sortRows rs)).trans (List.Perm.cons r ih)

theorem mem_sortRows (l : List DedupRow) (r : DedupRow) :
    r ∈ sortRows l ↔ r ∈ l :=
  (sortRows_perm l).mem_iff

theorem distinctOnId_subset :
    ∀ (l : List DedupRow) (seen : List String) (r : DedupRow),
      r ∈ distinctOnId seen l → r ∈ l := by
  intro l
  induction l with
  | nil => intro seen r hr; exact absurd hr (List.not_mem_nil r)
  | cons x xs ih =>
    intro seen r hr
    simp only [distinctOnId] at hr
    by_cases h : x.key.id ∈ seen
    · rw [if_pos h] at hr
      exact List.mem_cons_of_mem x (ih seen r hr)
    · rw [if_neg h] at hr
      rcases List.mem_cons.mp hr with h1 | h1
      · exact h1 ▸ List.mem_cons_self x xs
      · exact List.mem_cons_of_mem x (ih (x.key.id :: seen) r h1)

theorem distinctOnId_ids_nodup :
    ∀ (l : List DedupRow) (seen : List String),
      ((distinctOnId seen l).map (fun r => r.key.id)).Nodup ∧
      (∀ r ∈ distinctOnId seen l, ¬ r.key.id ∈ seen) := by
  intro l
  induction l with
  | nil => intro seen; exact ⟨List.nodup_nil, by intro r hr; cases hr⟩
  | cons x xs ih =>
    intro seen
    simp only [distinctOnId]
    by_cases h : x.key.id ∈ seen
    · rw [if_pos h]
      exact ih seen
    · rw [if_neg h]
      obtain ⟨ihnodup, ihseen⟩ := ih (x.key.id :: seen)
      refine ⟨?_, ?_⟩
      · simp only [List.map_cons]
        refine List.Nodup.cons ?_ ihnodup
        intro hmem
        obtain ⟨r, hr, hid⟩ := List.mem_map.mp hmem
        exact ihseen r hr (hid ▸ List.mem_cons_self _ _)
      · intro r hr
        rcases List.mem_cons.mp hr with h1 | h1
        · exact h1 ▸ h
        · intro hseen
          exact ihseen r h1 (List.mem_cons_of_mem _ hseen)

theorem distinctOnId_coverage :
    ∀ (l : List DedupRow) (seen : List String) (i : String),
      (∃ r ∈ l, r.key.id = i) → ¬ i ∈ seen →
      ∃ r ∈ distinctOnId seen l, r.key.id = i := by
  intro l
  induction l with
  | nil =>
    intro seen i hex _
    obtain ⟨r, hr, _⟩ := hex
    exact absurd hr (List.not_mem_nil r)
  | cons x xs ih =>
    intro seen i hex hseen
    obtain ⟨r, hr, hid⟩ := hex
    simp only [distinctOnId]
    by_cases h : x.key.id ∈ seen
    · rw [if_pos h]
      rcases List.mem_cons.mp hr with h1 | h1
      · exact absurd (hid ▸ h1 ▸ h) hseen
      · exact ih seen i ⟨r, h1, hid⟩ hseen
    · rw [if_neg h]
      by_cases hxi : x.key.id = i
      · exact ⟨x, List.mem_cons_self x _, hxi⟩
      · rcases List.mem_cons.mp hr with h1 | h1
        · exact absurd (h1 ▸ hid) hxi
        · obtain ⟨r', hr', hid'⟩ := ih (x.key.id :: seen) i ⟨r, h1, hid⟩
            (by
              intro hmem
              rcases List.mem_cons.mp hmem with h2 | h2
              · exact hxi h2.symm
              · exact hseen h2)
          exact ⟨r', List.mem_cons_of_mem x hr', hid'⟩

theorem mem_groupedRows (ts : List Track) (r : DedupRow) :
    r ∈ groupedRows ts ↔
      r.key ∈ ts.map groupKey ∧ r.added_at = groupMax ts r.key := by
  constructor
  · intro h
    obtain ⟨k, hk, hr⟩ := List.mem_map.mp h
    rw [← hr]
    exact ⟨(mem_distinctKeys _ k).mp hk, rfl⟩
  · intro ⟨hk, hmax⟩
    refine List.mem_map.mpr ⟨r.key, (mem_distinctKeys _ r.key).mpr hk, ?_⟩
    exact (congrArg (fun a => ({ key := r.key, added_at := a } : DedupRow))
      hmax.symm).trans rfl

/-! ## Claim C1: dedup keeps one row per id, not one per identity -/

/-- Store exhibiting two distinct identity tuples that share one external
identifier: same id and artist, different display names. -/
def c1Track1 : Track :=
  ⟨"dup-id", "Name X", "Artist", "ar1", "Album", "al1", "2020-01-01",
   100000, 10, false, "ISRC1", 10, "playlist_1"⟩

/-- Second record of the C1 counterexample store: same id and artist as
c1Track1 but a different display name and a later added_at. -/
def c1Track2 : Track :=
  ⟨"dup-id", "Name Y", "Artist", "ar1", "Album", "al1", "2020-01-01",
   100000, 10, false, "ISRC1", 20, "playlist_2"⟩

/-- C1 (counterexample): the claim requires one output record per distinct
identity tuple (id, name, artist) occurring in the store; with two stored
records of distinct identities sharing the id "dup-id", the query's
DISTINCT ON (id) keeps a single row, so one of the two identities has no
representative at all. -/
theorem C1_counterexample :
    ¬ (∀ t ∈ [c1Track1, c1Track2],
        ∃ r ∈ get_deduplicated_tracks [c1Track1, c1Track2],
          (r.key.id, r.key.name, r.key.artist) = identityKey t) := by
  intro H
  obtain ⟨r1, hr1, hid1⟩ := H c1Track1 (by simp)
  obtain ⟨r2, hr2, hid2⟩ := H c1Track2 (by simp [c1Track2])
  simp only [identityKey, c1Track1, c1Track2, Prod.mk.injEq] at hid1 hid2
  have hnodup :=
    (distinctOnId_ids_nodup (sortRows (groupedRows [c1Track1, c1Track2])) []).1
  have hr1' : r1 ∈ distinctOnId [] (sortRows (groupedRows [c1Track1, c1Track2])) := hr1
  have hr2' : r2 ∈ distinctOnId [] (sortRows (groupedRows [c1Track1, c1Track2])) := hr2
  have heq : r1 = r2 :=
    List.inj_on_of_nodup_map hnodup hr1' hr2'
      (by rw [hid1.1, hid2.1])
  have : ("Name X" : String) = "Name Y" := by
    rw [← hid1.2.1, ← hid2.2.1, heq]
  simp at this

/-- C1 (amended): get_deduplicated_tracks returns exactly one record per
distinct external identifier — not per (id, name, artist) identity tuple:
the output ids are pairwise distinct, every stored id is represented, and
each output row consists of a stored combination of the eleven grouped
columns together with the maximum "added at" over the stored records that
agree with it on ALL eleven grouped columns (the finer SQL GROUP BY
group), not over the records of its identity tuple. -/
theorem C1_amended (ts : List Track) (t : Track) (ht : t ∈ ts) :
    ((get_deduplicated_tracks ts).map (fun r => r.key.id)).Nodup ∧
    (∃ r ∈ get_deduplicated_tracks ts, r.key.id = t.id) ∧
    (∀ r ∈ get_deduplicated_tracks ts,
      r.added_at = groupMax ts r.key ∧ r.key ∈ ts.map groupKey) := by
  refine ⟨(distinctOnId_ids_nodup (sortRows (groupedRows ts)) []).1, ?_, ?_⟩
  · have hkey : groupKey t ∈ ts.map groupKey := List.mem_map_of_mem groupKey ht
    have hrow : (⟨groupKey t, groupMax ts (groupKey t)⟩ : DedupRow)
        ∈ groupedRows ts :=
      (mem_groupedRows ts _).mpr ⟨hkey, rfl⟩
    have hsort : (⟨groupKey t, groupMax ts (groupKey t)⟩ : DedupRow)
        ∈ sortRows (groupedRows ts) :=
      (mem_sortRows _ _).mpr hrow
    exact distinctOnId_coverage (sortRows (groupedRows ts)) [] t.id
      ⟨_, hsort, rfl⟩ (List.not_mem_nil t.id)
  · intro r hr
    have hsort : r ∈ sortRows (groupedRows ts) :=
      distinctOnId_subset _ [] r hr
    have hgrp : r ∈ groupedRows ts := (mem_sortRows _ _).mp hsort
    obtain ⟨hkey, hmax⟩ := (mem_groupedRows ts r).mp hgrp
    exact ⟨hmax, hkey⟩

/-- Record of the claim's two-source scenario as stored from the first
source. -/
def c1Dup1 : Track :=
  ⟨"same-id", "Same Name", "Same Artist", "ar", "Album", "al", "2020-01-01",
   100000, 10, false, "ISRC", 10, "playlist_1"⟩

/-- The same record fetched from the second source: identical on every
grouped column, later added_at. -/
def c1Dup2 : Track :=
  { c1Dup1 with added_at := 20, playlist_source := "playlist_2" }

/-- Witness for C1_amended, instantiated at the claim's two-source
scenario: the two stored records agree on every grouped column and differ
in added_at (10 versus 20); the query returns exactly one record for the
shared id, and it carries the later timestamp 20. -/
theorem C1_amended_witness :
    (c1Dup1 ∈ [c1Dup1, c1Dup2] ∧
     ∃ r ∈ get_deduplicated_tracks [c1Dup1, c1Dup2], r.key.id = c1Dup1.id) ∧
    get_deduplicated_tracks [c1Dup1, c1Dup2] = [⟨groupKey c1Dup1, 20⟩] :=
  ⟨⟨by decide, (C1_amended [c1Dup1, c1Dup2] c1Dup1 (by decide)).2.1⟩, by decide⟩

end SpotifyMerger
